import Mathlib

/-!
Verification of the FPL "Manager of the Week" repository.

The repository ships a Next.js frontend (`frontend/src/app/page.tsx`) and a
Python FastAPI backend that serves `/generate-file/?league_id=...`.  The
backend engine (League Data Client, Standings Aggregator, Weekly Winner
Resolver, Report Serializer) is not part of the visible sources, so those
components are modelled from the specification (§3, §4 of the spec); the
frontend behaviour is embedded directly from `page.tsx`.
-/

namespace FplMotw

/-! ## Engine data model (spec §3) -/

/-- Modelled from the spec: §3 Entry — one manager's participation in the
league; manager id, display name, team name. -/
structure Entry where
  managerId : Nat
  displayName : String
  teamName : String
deriving DecidableEq, Repr

/-- Modelled from the spec: §3 GameweekRecord — one (Entry, period) pair with
points scored that period, the running total, and the provider's
finalized indicator.  The Entry is referenced by its manager id (entries in a
league are unique by manager id). -/
structure GameweekRecord where
  managerId : Nat
  period : Nat
  points : Int
  totalPoints : Int
  finalized : Bool
deriving DecidableEq, Repr

/-- Modelled from the spec: §3 PeriodResult — period number, winning Entry
or set of tied Entries, winning points value. -/
structure PeriodResult where
  period : Nat
  winners : List Entry
  points : Int
deriving DecidableEq, Repr

/-- Modelled from the spec: §7 error taxonomy of the engine. -/
inductive FplError where
  | notFound
  | providerUnavailable
  | providerDataInvalid
  | timeout
deriving DecidableEq, Repr

/-- Co-winner ordering relation: by manager id ascending (spec §4.3). -/
def entryLe (a b : Entry) : Prop := a.managerId ≤ b.managerId

instance : DecidableRel entryLe := fun a b => Nat.decLe a.managerId b.managerId

instance : IsTotal Entry entryLe := ⟨fun a b => Nat.le_total a.managerId b.managerId⟩

instance : IsTrans Entry entryLe := ⟨fun _ _ _ hab hbc => Nat.le_trans hab hbc⟩

/-! ## Weekly Winner Resolver (spec §4.3) -/

/-- Modelled from the spec: §4.3 Weekly Winner Resolver.
`resolve period rows` returns the PeriodResult whose winners are all Entries
sharing the maximum points value of the period, ordered by manager id
ascending.  The only failure condition is an empty row list (`none`). -/
def resolve (period : Nat) (rows : List (Entry × Int)) : Option PeriodResult :=
  match rows with
  | [] => none
  | r :: rs =>
    let m := rs.foldl (fun acc x => max acc x.2) r.2
    let tied := ((r :: rs).filter (fun x => x.2 == m)).map Prod.fst
    some ⟨period, List.insertionSort entryLe tied, m⟩

theorem foldl_max_init_le (l : List Int) (a : Int) : a ≤ l.foldl max a := by
  induction l generalizing a with
  | nil => exact le_refl a
  | cons b l ih => exact le_trans (le_max_left a b) (ih (max a b))

theorem mem_le_foldl_max (l : List Int) (a : Int) : ∀ x ∈ l, x ≤ l.foldl max a := by
  induction l generalizing a with
  | nil => intro x hx; cases hx
  | cons b l ih =>
    intro x hx
    rcases List.mem_cons.mp hx with h | h
    · subst h
      exact le_trans (le_max_right a x) (foldl_max_init_le l (max a x))
    · exact ih (max a b) x h

theorem foldl_max_pair_eq (rs : List (Entry × Int)) (a : Int) :
    rs.foldl (fun acc x => max acc x.2) a = (rs.map Prod.snd).foldl max a := by
  induction rs generalizing a with
  | nil => rfl
  | cons r rs ih => simp [List.foldl_cons, ih]

/-- C1: whenever several Entries share the maximum points value of a period,
`resolve` lists every one of them among the winners (never an arbitrary
single pick), the winning points value is the maximum of the period, and the
winners are ordered by manager id ascending. -/
theorem resolve_lists_all_tied_winners_sorted (period : Nat)
    (rows : List (Entry × Int)) (h : rows ≠ []) :
    ∃ res, resolve period rows = some res ∧
      (∀ x ∈ rows, x.2 ≤ res.points) ∧
      (∀ x ∈ rows, x.2 = res.points → x.1 ∈ res.winners) ∧
      List.Sorted entryLe res.winners := by
  match rows with
  | [] => exact absurd rfl h
  | r :: rs =>
    refine ⟨_, rfl, ?_, ?_, ?_⟩
    · intro x hx
      rcases List.mem_cons.mp hx with hx | hx
      · subst hx
        simpa [foldl_max_pair_eq] using
          foldl_max_init_le (rs.map Prod.snd) x.2
      · simpa [foldl_max_pair_eq] using
          mem_le_foldl_max (rs.map Prod.snd) r.2 x.2 (List.mem_map_of_mem Prod.snd hx)
    · intro x hx hm
      simp only [List.mem_insertionSort]
      exact List.mem_map_of_mem Prod.fst
        (List.mem_filter.mpr ⟨hx, by simpa using hm⟩)
    · exact List.sorted_insertionSort entryLe _

/-- Entry A of the spec §8 scenario. -/
def entryA : Entry := ⟨1, "A", "TA"⟩

/-- Entry B of the spec §8 scenario. -/
def entryB : Entry := ⟨2, "B", "TB"⟩

/-- The spec §8 scenario rows of period 2: A and B tied at 60 points. -/
def tiedRows : List (Entry × Int) := [(entryA, 60), (entryB, 60)]

/-- Witness for C1: the spec §8 scenario, period 2 with entries A (id 1) and
B (id 2) tied at 60 points. -/
theorem resolve_lists_all_tied_winners_sorted_witness :
    ∃ res, resolve 2 tiedRows = some res ∧
      (∀ x ∈ tiedRows, x.2 ≤ res.points) ∧
      (∀ x ∈ tiedRows, x.2 = res.points → x.1 ∈ res.winners) ∧
      List.Sorted entryLe res.winners :=
  resolve_lists_all_tied_winners_sorted 2 tiedRows (by decide)

/-! ## Standings Aggregator (spec §4.2) -/

/-- Modelled from the spec: the finalized record of a given entry for a given
period, if any (entries are unique by manager id, records free of duplicates
under `recordsValid`). -/
def findFinalized (records : List GameweekRecord) (mid p : Nat) : Option GameweekRecord :=
  records.find? (fun r => r.managerId == mid && r.period == p && r.finalized)

/-- Modelled from the spec: §4.2 completeness condition — every Entry of the
league has a finalized record for period `p`. -/
def periodComplete (entries : List Entry) (records : List GameweekRecord) (p : Nat) : Bool :=
  entries.all (fun e => (findFinalized records e.managerId p).isSome)

/-- Modelled from the spec: the per-period table row list
(Entry, points, cumulativePoints) of period `p`. -/
def periodRows (entries : List Entry) (records : List GameweekRecord) (p : Nat) :
    List (Entry × Int × Int) :=
  entries.filterMap (fun e =>
    (findFinalized records e.managerId p).map (fun r => (e, r.points, r.totalPoints)))

/-- Modelled from the spec: the candidate periods are the period numbers
appearing among the records, deduplicated and in ascending order. -/
def candidatePeriods (records : List GameweekRecord) : List Nat :=
  List.insertionSort (fun a b => a ≤ b) (records.map (fun r => r.period)).dedup

/-- Modelled from the spec: §4.2 validity — duplicate-free record list. -/
def duplicateFree : List GameweekRecord → Bool
  | [] => true
  | r :: rs =>
    rs.all (fun x => !(x.managerId == r.managerId && x.period == r.period)) && duplicateFree rs

/-- Modelled from the spec: §4.2 `ProviderDataInvalid` conditions — every
record references an Entry of the league, and no Entry has two records for
the same period. -/
def recordsValid (entries : List Entry) (records : List GameweekRecord) : Bool :=
  records.all (fun r => entries.any (fun e => e.managerId == r.managerId)) &&
    duplicateFree records

/-- Modelled from the spec: §4.2 Standings Aggregator core — groups records
by period and keeps only the complete periods, each mapped to its
(Entry, points, cumulativePoints) rows. -/
def aggregateCore (entries : List Entry) (records : List GameweekRecord) :
    List (Nat × List (Entry × Int × Int)) :=
  ((candidatePeriods records).filter (fun p => periodComplete entries records p)).map
    (fun p => (p, periodRows entries records p))

/-- Modelled from the spec: §4.2 Standings Aggregator contract, failing with
`ProviderDataInvalid` on duplicate records or records referencing an unknown
Entry. -/
def aggregate (entries : List Entry) (records : List GameweekRecord) :
    Except FplError (List (Nat × List (Entry × Int × Int))) :=
  if recordsValid entries records then Except.ok (aggregateCore entries records)
  else Except.error FplError.providerDataInvalid

/-- Resolve one aggregated period: drop the cumulative column and apply the
Weekly Winner Resolver. -/
def resolvePeriod (pl : Nat × List (Entry × Int × Int)) : Option PeriodResult :=
  resolve pl.1 (pl.2.map (fun t => (t.1, t.2.1)))

/-- Modelled from the spec: §2 pipeline Aggregator → Resolver, producing the
ordered list of PeriodResults of the Report. -/
def generateResults (entries : List Entry) (records : List GameweekRecord) :
    Except FplError (List PeriodResult) :=
  (aggregate entries records).map (fun tbl => tbl.filterMap resolvePeriod)

theorem resolve_isSome_of_ne_nil (period : Nat) (rows : List (Entry × Int))
    (h : rows ≠ []) : (resolve period rows).isSome := by
  match rows with
  | [] => exact absurd rfl h
  | r :: rs => rfl

theorem resolve_period_eq (period : Nat) (rows : List (Entry × Int))
    (res : PeriodResult) (h : resolve period rows = some res) : res.period = period := by
  match rows with
  | [] => exact absurd h (by simp [resolve])
  | r :: rs =>
    simp only [resolve] at h
    cases h
    rfl

theorem periodComplete_finalized_record (entries : List Entry)
    (records : List GameweekRecord) (p : Nat)
    (hc : periodComplete entries records p = true) :
    ∀ e ∈ entries, ∃ r ∈ records, r.managerId = e.managerId ∧ r.period = p ∧
      r.finalized = true := by
  intro e he
  have h1 : (findFinalized records e.managerId p).isSome :=
    List.all_eq_true.mp hc e he
  rw [findFinalized, List.find?_isSome] at h1
  obtain ⟨r, hr, hpred⟩ := h1
  refine ⟨r, hr, ?_⟩
  have := hpred
  simp only [Bool.and_eq_true, beq_iff_eq] at this
  exact ⟨this.1.1, this.1.2, this.2⟩

/-- C2: every PeriodResult of a successfully generated Report belongs to a
period for which every Entry of the league has a finalized GameweekRecord;
periods with even one Entry missing a finalized record are omitted entirely. -/
theorem report_periods_complete (entries : List Entry)
    (records : List GameweekRecord) (report : List PeriodResult)
    (hok : generateResults entries records = Except.ok report) :
    ∀ res ∈ report, ∀ e ∈ entries, ∃ r ∈ records,
      r.managerId = e.managerId ∧ r.period = res.period ∧ r.finalized = true := by
  intro res hres e he
  rw [generateResults, aggregate] at hok
  by_cases hv : recordsValid entries records = true
  · rw [if_pos hv] at hok
    simp only [Except.map] at hok
    cases hok
    obtain ⟨pl, hpl, hsome⟩ := List.mem_filterMap.mp hres
    obtain ⟨p, hp, hplv⟩ := List.mem_map.mp hpl
    have hcomp : periodComplete entries records p = true :=
      (List.mem_filter.mp hp).2
    have hper : res.period = p := by
      rw [resolvePeriod] at hsome
      have := resolve_period_eq pl.1 (pl.2.map (fun t => (t.1, t.2.1))) res hsome
      rw [this, ← hplv]
    rw [hper]
    exact periodComplete_finalized_record entries records p hcomp e he
  · rw [if_neg hv] at hok
    simp [Except.map] at hok

/-- The spec §8 scenario league: entries A (id 1) and B (id 2). -/
def sampleEntries : List Entry := [entryA, entryB]

/-- The spec §8 scenario records: A scores 50 then 60, B scores 70 then 60,
both periods finalized. -/
def sampleRecords : List GameweekRecord :=
  [⟨1, 1, 50, 50, true⟩, ⟨1, 2, 60, 110, true⟩,
   ⟨2, 1, 70, 70, true⟩, ⟨2, 2, 60, 130, true⟩]

/-- Witness for C2: in the spec §8 scenario, the first PeriodResult of the
generated Report has a finalized record of entry A backing it. -/
theorem report_periods_complete_witness :
    ∃ r ∈ sampleRecords, r.managerId = entryA.managerId ∧
      r.period = PeriodResult.period ⟨1, [entryB], 70⟩ ∧ r.finalized = true :=
  report_periods_complete sampleEntries sampleRecords
    [⟨1, [entryB], 70⟩, ⟨2, [entryA, entryB], 60⟩] rfl
    ⟨1, [entryB], 70⟩ (by decide) entryA (by decide)

theorem periodRows_ne_nil (entries : List Entry) (records : List GameweekRecord)
    (p : Nat) (hne : entries ≠ [])
    (hc : periodComplete entries records p = true) :
    periodRows entries records p ≠ [] := by
  match entries with
  | [] => exact absurd rfl hne
  | e :: es =>
    have h1 : (findFinalized records e.managerId p).isSome :=
      List.all_eq_true.mp hc e (List.mem_cons_self e es)
    obtain ⟨r, hr⟩ := Option.isSome_iff_exists.mp h1
    rw [periodRows, List.filterMap_cons, hr]
    simp

/-- C7: under the Aggregator's validity precondition (equivalently, whenever
the Aggregator succeeds), every per-period row list it emits is non-empty, so
the Weekly Winner Resolver's error branch is unreachable on Aggregator
output. -/
theorem resolver_error_unreachable (entries : List Entry)
    (records : List GameweekRecord) (tbl : List (Nat × List (Entry × Int × Int)))
    (hok : aggregate entries records = Except.ok tbl) :
    ∀ pl ∈ tbl, pl.2 ≠ [] ∧ (resolvePeriod pl).isSome := by
  intro pl hpl
  rw [aggregate] at hok
  by_cases hv : recordsValid entries records = true
  · rw [if_pos hv] at hok
    cases hok
    obtain ⟨p, hp, hplv⟩ := List.mem_map.mp hpl
    have hcomp : periodComplete entries records p = true :=
      (List.mem_filter.mp hp).2
    have hcand : p ∈ candidatePeriods records := (List.mem_filter.mp hp).1
    rw [candidatePeriods, List.mem_insertionSort, List.mem_dedup] at hcand
    obtain ⟨r0, hr0, hr0p⟩ := List.mem_map.mp hcand
    have hentries : entries ≠ [] := by
      have hv2 := hv
      rw [recordsValid, Bool.and_eq_true] at hv2
      have hall := hv2.1
      have hany := List.all_eq_true.mp hall r0 hr0
      obtain ⟨e0, he0, _⟩ := List.any_eq_true.mp hany
      intro hnil
      rw [hnil] at he0
      cases he0
    have hrows : periodRows entries records p ≠ [] :=
      periodRows_ne_nil entries records p hentries hcomp
    constructor
    · rw [← hplv]
      exact hrows
    · rw [resolvePeriod]
      apply resolve_isSome_of_ne_nil
      intro hmapnil
      exact hrows (by
        have : pl.2 = [] := List.map_eq_nil_iff.mp hmapnil
        rw [← hplv] at this
        exact this)
  · rw [if_neg hv] at hok
    cases hok

/-- Witness for C7: in the spec §8 scenario the aggregated period 1 has
non-empty rows and the Resolver succeeds on it. -/
theorem resolver_error_unreachable_witness :
    (1, periodRows sampleEntries sampleRecords 1).2 ≠ ([] : List (Entry × Int × Int)) ∧
      (resolvePeriod (1, periodRows sampleEntries sampleRecords 1)).isSome :=
  resolver_error_unreachable sampleEntries sampleRecords
    (aggregateCore sampleEntries sampleRecords) rfl
    (1, periodRows sampleEntries sampleRecords 1) (by decide)

/-! ## Report Serializer (spec §4.4) and determinism -/

/-- Double every quote character (standard tabular-text quoting). -/
def escQuotes : List Char → List Char
  | [] => []
  | c :: cs => if c = '"' then '"' :: '"' :: escQuotes cs else c :: escQuotes cs

/-- Modelled from the spec: §4.4 escaping — a field containing the delimiter,
the quote character or a newline is quoted, with inner quotes doubled. -/
def csvEscape (s : String) : String :=
  if s.data.any (fun c => c == ',' || c == '"' || c == '\x0a') then
    String.mk ('"' :: escQuotes s.data ++ ['"'])
  else s

/-- Modelled from the spec: §4.4 co-winner names joined with a documented
separator. -/
def joinNames (ws : List Entry) : String :=
  String.intercalate " & " (ws.map (fun e => e.displayName))

/-- Modelled from the spec: §4.4 one row per PeriodResult — period number,
winner name(s), winning points, league name. -/
def serializeRow (leagueName : String) (res : PeriodResult) : String :=
  toString res.period ++ "," ++ csvEscape (joinNames res.winners) ++ "," ++
    toString res.points ++ "," ++ csvEscape leagueName

/-- Modelled from the spec: §4.4 Report Serializer — header row plus one row
per PeriodResult, newline separated. -/
def serializeReport (leagueName : String) (results : List PeriodResult) : String :=
  String.intercalate "\x0a"
    ("period,winner,points,league" :: results.map (serializeRow leagueName))

/-- The client-side fallback download filename of `page.tsx` line 128:
`fpl-motw-<leagueId>.csv`. -/
def fallbackFilename (leagueId : String) : String :=
  "fpl-motw-" ++ leagueId ++ ".csv"

/-- Modelled from the spec: §4.4 filename convention — deterministic from the
league id and embedding it, matching the client's convention. -/
def serverFilename (leagueId : Nat) : String :=
  fallbackFilename (toString leagueId)

/-- Modelled from the spec: §3 — an immutable snapshot of provider data for
one league: league metadata, Entries, GameweekRecords. -/
structure ProviderSnapshot where
  leagueId : Nat
  leagueName : String
  entries : List Entry
  records : List GameweekRecord
deriving DecidableEq, Repr

/-- Modelled from the spec: §2 full pipeline Aggregator → Resolver →
Serializer over a provider snapshot, yielding file bytes and filename. -/
def generateFile (s : ProviderSnapshot) : Except FplError (String × String) :=
  (generateResults s.entries s.records).map
    (fun report => (serializeReport s.leagueName report, serverFilename s.leagueId))

/-- C3: report generation is a pure function of the provider snapshot — two
runs over the same immutable snapshot produce the same PeriodResult list and
byte-identical serialized output and filename. -/
theorem report_generation_deterministic (s1 s2 : ProviderSnapshot) (h : s1 = s2) :
    generateResults s1.entries s1.records = generateResults s2.entries s2.records ∧
      generateFile s1 = generateFile s2 := by
  subst h
  exact ⟨rfl, rfl⟩

/-- The spec §8 scenario snapshot. -/
def sampleSnapshot : ProviderSnapshot :=
  ⟨123, "Sample League", sampleEntries, sampleRecords⟩

/-- Witness for C3: two runs over the spec §8 scenario snapshot agree. -/
theorem report_generation_deterministic_witness :
    generateResults sampleSnapshot.entries sampleSnapshot.records =
        generateResults sampleSnapshot.entries sampleSnapshot.records ∧
      generateFile sampleSnapshot = generateFile sampleSnapshot :=
  report_generation_deterministic sampleSnapshot sampleSnapshot rfl

/-! ## Frontend embedding: response handling of `page.tsx` (lines 114-131) -/

/-- The fields of a fetch response that `handleSubmit` reads. -/
structure HttpResponse where
  status : Nat
  ok : Bool
  contentDisposition : Option String
deriving DecidableEq, Repr

/-- The literal part of the regex `/filename="(.+)"/` of `page.tsx` line 127. -/
def cdPattern : List Char := ['f', 'i', 'l', 'e', 'n', 'a', 'm', 'e', '=', '"']

/-- Greedy capture of `(.+)"` at the current position: the longest non-empty
newline-free run of characters followed by a quote (regex `.` does not match
newlines, `+` is greedy). -/
def captureAt (s : List Char) : Option (List Char) :=
  let t := s.takeWhile (fun c => !(c == '\x0a'))
  match t.reverse.findIdx? (fun c => c == '"') with
  | none => none
  | some k =>
    if 1 ≤ t.length - 1 - k then some (t.take (t.length - 1 - k)) else none

/-- Scan for the first position where `/filename="(.+)"/` matches, returning
the capture group. -/
def scanMatch : List Char → Option (List Char)
  | [] => none
  | c :: rest =>
    if cdPattern.isPrefixOf (c :: rest) then
      match captureAt ((c :: rest).drop cdPattern.length) with
      | some cap => some cap
      | none => scanMatch rest
    else scanMatch rest

/-- `contentDisposition?.match(/filename="(.+)"/)` group 1 of `page.tsx`
line 127. -/
def filenameMatch (s : String) : Option String :=
  (scanMatch s.data).map String.mk

/-- The response handling of `handleSubmit` (`page.tsx` lines 118-128): a
non-ok response is a failure; on success the download filename comes from the
`Content-Disposition` header when the regex matches, else the fallback. -/
def clientHandleResponse (leagueId : String) (r : HttpResponse) : Except String String :=
  if !r.ok then Except.error ("HTTP error! status: " ++ toString r.status)
  else
    match r.contentDisposition with
    | some cd =>
      match filenameMatch cd with
      | some fn => Except.ok fn
      | none => Except.ok (fallbackFilename leagueId)
    | none => Except.ok (fallbackFilename leagueId)

/-- Modelled from the spec: §6 inbound HTTP — the backend endpoint (not under
the visible sources) returns either a tabular file with a
`Content-Disposition` filename, or a JSON error body with a non-2xx
status. -/
inductive EndpointResponse where
  | fileResp (body : String) (filename : String)
  | jsonError (detail : String) (status : Nat)
deriving DecidableEq, Repr

/-- Fetch's 2xx ok-flag. -/
def statusOk (st : Nat) : Bool := decide (200 ≤ st) && decide (st < 300)

/-- Modelled from the spec: §6 — the HTTP response the client observes for
each endpoint outcome; a file comes with status 200 and an
`attachment; filename="..."` header, an error body with its non-2xx
status and no `Content-Disposition` header. -/
def toHttpResponse : EndpointResponse → HttpResponse
  | EndpointResponse.fileResp _ fn =>
    ⟨200, statusOk 200, some ("attachment; filename=\x22" ++ fn ++ "\x22")⟩
  | EndpointResponse.jsonError _ st => ⟨st, statusOk st, none⟩

theorem takeWhile_eq_self_of_all (p : Char → Bool) (l : List Char)
    (h : ∀ c ∈ l, p c = true) : l.takeWhile p = l := by
  induction l with
  | nil => rfl
  | cons c cs ih =>
    rw [List.takeWhile_cons, h c (List.mem_cons_self c cs),
      ih (fun x hx => h x (List.mem_cons_of_mem c hx))]
    simp

theorem captureAt_append_quote (fn : List Char) (hne : fn ≠ [])
    (_hq : '\x22' ∉ fn) (hnl : '\x0a' ∉ fn) :
    captureAt (fn ++ ['\x22']) = some fn := by
  have ht : (fn ++ ['\x22']).takeWhile (fun c => !(c == '\x0a')) = fn ++ ['\x22'] := by
    apply takeWhile_eq_self_of_all
    intro c hc
    rcases List.mem_append.mp hc with h | h
    · have : c ≠ '\x0a' := fun hceq => hnl (hceq ▸ h)
      simp [this]
    · have : c = '\x22' := by simpa using h
      simp [this]
  have hrev : (fn ++ ['\x22']).reverse = '\x22' :: fn.reverse := by
    simp
  have hfind : ((fn ++ ['\x22']).reverse.findIdx? (fun c => c == '\x22')) = some 0 := by
    rw [hrev]
    simp [List.findIdx?_cons]
  have hlen : (fn ++ ['\x22']).length - 1 - 0 = fn.length := by
    simp
  have hpos : 1 ≤ fn.length := List.length_pos.mpr hne
  rw [captureAt]
  simp only [ht, hfind, hlen]
  rw [if_pos hpos]
  congr 1
  exact List.take_left fn ['\x22']

theorem scanMatch_cons_ne (c : Char) (rest : List Char) (hc : c ≠ 'f') :
    scanMatch (c :: rest) = scanMatch rest := by
  have hp : cdPattern.isPrefixOf (c :: rest) = false := by
    have : ('f' == c) = false := by
      simp [Ne.symm hc]
    simp [cdPattern, List.isPrefixOf, this]
  rw [scanMatch, hp]
  simp

theorem scanMatch_no_f (pre : List Char) (hpre : ∀ c ∈ pre, c ≠ 'f')
    (s : List Char) : scanMatch (pre ++ s) = scanMatch s := by
  induction pre with
  | nil => rfl
  | cons c cs ih =>
    rw [List.cons_append, scanMatch_cons_ne c _ (hpre c (List.mem_cons_self c cs))]
    exact ih (fun x hx => hpre x (List.mem_cons_of_mem c hx))

theorem scanMatch_at_pattern (s cap : List Char) (hcap : captureAt s = some cap) :
    scanMatch (cdPattern ++ s) = some cap := by
  have h1 : cdPattern ++ s = 'f' :: (['i', 'l', 'e', 'n', 'a', 'm', 'e', '=', '\x22'] ++ s) := rfl
  have hp : cdPattern.isPrefixOf
      ('f' :: (['i', 'l', 'e', 'n', 'a', 'm', 'e', '=', '\x22'] ++ s)) = true := by
    simp [cdPattern, List.isPrefixOf]
  have hdrop : ('f' :: (['i', 'l', 'e', 'n', 'a', 'm', 'e', '=', '\x22'] ++ s)).drop
      cdPattern.length = s := rfl
  rw [h1, scanMatch, hp, hdrop, hcap]
  simp

theorem filenameMatch_header (fn : String) (hne : fn.data ≠ [])
    (hq : '\x22' ∉ fn.data) (hnl : '\x0a' ∉ fn.data) :
    filenameMatch ("attachment; filename=\x22" ++ fn ++ "\x22") = some fn := by
  have hdata : ("attachment; filename=\x22" ++ fn ++ "\x22").data =
      "attachment; ".data ++ (cdPattern ++ (fn.data ++ ['\x22'])) := by
    simp [cdPattern]
  have hnof : ∀ c ∈ "attachment; ".data, c ≠ 'f' := by decide
  rw [filenameMatch, hdata, scanMatch_no_f _ hnof,
    scanMatch_at_pattern _ fn.data (captureAt_append_quote fn.data hne hq hnl)]
  rfl

/-- C4: for every request, the modelled endpoint answers either with a file
whose `Content-Disposition` carries a filename, or a JSON error with a
non-2xx status; the embedded client handler of `page.tsx` treats every
non-ok response as a failure, and on success extracts the download filename
from the `Content-Disposition` header. -/
theorem http_interface_contract (leagueId : String) (er : EndpointResponse) :
    (∀ d st, er = EndpointResponse.jsonError d st → ¬(200 ≤ st ∧ st < 300) →
      clientHandleResponse leagueId (toHttpResponse er) =
        Except.error ("HTTP error! status: " ++ toString st)) ∧
    (∀ body fn, er = EndpointResponse.fileResp body fn → fn.data ≠ [] →
      '\x22' ∉ fn.data → '\x0a' ∉ fn.data →
      clientHandleResponse leagueId (toHttpResponse er) = Except.ok fn) := by
  constructor
  · intro d st her hst
    subst her
    have hok : statusOk st = false := by
      rw [statusOk]
      rcases Decidable.em (200 ≤ st) with h1 | h1
      · have h2 : ¬ st < 300 := fun h2 => hst ⟨h1, h2⟩
        simp [h2]
      · simp [h1]
    rw [toHttpResponse, clientHandleResponse]
    simp [hok]
  · intro body fn her hne hq hnl
    subst her
    rw [toHttpResponse, clientHandleResponse]
    simp only [statusOk]
    norm_num
    rw [filenameMatch_header fn hne hq hnl]

/-- Witness for C4: a concrete file response and a concrete 404 error. -/
theorem http_interface_contract_witness :
    clientHandleResponse "7" (toHttpResponse (EndpointResponse.fileResp "csv" "fpl-motw-7.csv")) =
        Except.ok "fpl-motw-7.csv" ∧
      clientHandleResponse "7" (toHttpResponse (EndpointResponse.jsonError "League not found" 404)) =
        Except.error ("HTTP error! status: " ++ toString 404) :=
  ⟨(http_interface_contract "7" (EndpointResponse.fileResp "csv" "fpl-motw-7.csv")).2
      "csv" "fpl-motw-7.csv" rfl (by decide) (by decide) (by decide),
    (http_interface_contract "7" (EndpointResponse.jsonError "League not found" 404)).1
      "League not found" 404 rfl (by decide)⟩

/-! ## Frontend embedding: `handleSubmit` of `page.tsx` (lines 79-154) -/

/-- The observable effects `handleSubmit` performs, in order. -/
inductive Effect where
  | setError (msg : String)
  | setSuccess (msg : String)
  | setLoadingMessage (msg : String)
  | sleep (ms : Nat)
  | fetchUrl (url : String)
  | download (filename : String)
deriving DecidableEq, Repr

/-- Outcome of the `fetch` call: a response, or a thrown network error with
its message. -/
inductive FetchOutcome where
  | success (r : HttpResponse)
  | failure (msg : String)
deriving DecidableEq, Repr

/-- The effect trace of `handleSubmit` (`page.tsx` lines 79-154): early
return with an error on empty league id; otherwise the staged loading
messages, the fetch, then either the download path or the caught error, and
in all try paths the `finally` reset of the loading message. -/
def handleSubmitTrace (apiBaseUrl leagueId : String) (outcome : FetchOutcome) :
    List Effect :=
  if leagueId == "" then [Effect.setError "Please fill in the league ID"]
  else
    [Effect.setError "", Effect.setSuccess "",
     Effect.setLoadingMessage "Validating league ID...", Effect.sleep 500,
     Effect.setLoadingMessage "Fetching league data from FPL API...", Effect.sleep 800,
     Effect.setLoadingMessage "Processing manager standings...", Effect.sleep 700,
     Effect.setLoadingMessage "Generating your report...",
     Effect.fetchUrl (apiBaseUrl ++ "/generate-file/?league_id=" ++ leagueId)] ++
    (match outcome with
     | FetchOutcome.failure msg => [Effect.setError ("Error generating file: " ++ msg)]
     | FetchOutcome.success r =>
       match clientHandleResponse leagueId r with
       | Except.error msg => [Effect.setError ("Error generating file: " ++ msg)]
       | Except.ok fn =>
         [Effect.setLoadingMessage "Preparing download...",
          Effect.download fn,
          Effect.setSuccess "File generated and downloaded successfully!"]) ++
    [Effect.setLoadingMessage ""]

/-- Does a trace contain a fetch? -/
def fetchCount (t : List Effect) : Nat :=
  (t.filter (fun e => match e with | Effect.fetchUrl _ => true | _ => false)).length

/-- C5: submitting with an empty league id surfaces the error immediately
and performs no network call: the trace is exactly the `setError` and no
fetch effect occurs. -/
theorem empty_league_id_no_fetch (apiBaseUrl : String) (outcome : FetchOutcome) :
    handleSubmitTrace apiBaseUrl "" outcome = [Effect.setError "Please fill in the league ID"] ∧
      fetchCount (handleSubmitTrace apiBaseUrl "" outcome) = 0 := by
  constructor
  · rw [handleSubmitTrace.eq_def]
    simp
  · rw [handleSubmitTrace.eq_def]
    simp [fetchCount]

/-- The component state of `Home` that the effects update. -/
structure UiState where
  leagueId : String
  loadingMessage : String
  errorMsg : String
  successMsg : String
  autoDownload : Bool
deriving DecidableEq, Repr

/-- Apply one effect to the component state (the `set*` React state setters;
sleeps, fetches and downloads leave the state unchanged). -/
def applyEffect (s : UiState) : Effect → UiState
  | Effect.setError m => { s with errorMsg := m }
  | Effect.setSuccess m => { s with successMsg := m }
  | Effect.setLoadingMessage m => { s with loadingMessage := m }
  | Effect.sleep _ => s
  | Effect.fetchUrl _ => s
  | Effect.download _ => s

/-- Run `handleSubmit` from a component state: fold its effect trace over the
state. -/
def runHandleSubmit (apiBaseUrl : String) (s : UiState) (outcome : FetchOutcome) : UiState :=
  (handleSubmitTrace apiBaseUrl s.leagueId outcome).foldl applyEffect s

/-- The input field of `page.tsx` line 211 is disabled iff a loading message
is set; the Download button (line 219) additionally when the league id is
empty. -/
def inputDisabled (s : UiState) : Bool := !(s.loadingMessage == "")

/-- C9: every submission with a non-empty league id ends with the `finally`
reset: the final loading message is empty, whether the fetch succeeded or
failed, so the input field is not left disabled by a completed request. -/
theorem submission_resets_loading_message (apiBaseUrl : String) (s : UiState)
    (outcome : FetchOutcome) (h : s.leagueId ≠ "") :
    (runHandleSubmit apiBaseUrl s outcome).loadingMessage = "" ∧
      inputDisabled (runHandleSubmit apiBaseUrl s outcome) = false := by
  have hbeq : (s.leagueId == "") = false := by
    simp [h]
  have hfinal : (runHandleSubmit apiBaseUrl s outcome).loadingMessage = "" := by
    rw [runHandleSubmit, handleSubmitTrace.eq_def, hbeq]
    simp only [Bool.false_eq_true, if_false, List.foldl_append]
    match outcome with
    | FetchOutcome.failure msg => rfl
    | FetchOutcome.success r =>
      match clientHandleResponse s.leagueId r with
      | Except.error msg => rfl
      | Except.ok fn => rfl
  refine ⟨hfinal, ?_⟩
  rw [inputDisabled, hfinal]
  rfl

/-- Witness for C9: a concrete submission with league id "7" and a failed
fetch ends with an empty loading message and an enabled input. -/
theorem submission_resets_loading_message_witness :
    (runHandleSubmit "" ⟨"7", "", "", "", false⟩ (FetchOutcome.failure "network down")).loadingMessage = "" ∧
      inputDisabled (runHandleSubmit "" ⟨"7", "", "", "", false⟩ (FetchOutcome.failure "network down")) = false :=
  submission_resets_loading_message "" ⟨"7", "", "", "", false⟩
    (FetchOutcome.failure "network down") (by decide)

/-! ## Frontend embedding: the auto-download effect of `page.tsx`
(lines 72-77) -/

/-- The events a mounted page can process: a run of the auto-download
`useEffect`, an edit of the league id input, or a manual form submission.
None of them sets `autoDownload` to true (only the mount effect, which fixes
the initial state, does). -/
inductive PageEvent where
  | autoEffect (apiBaseUrl : String) (outcome : FetchOutcome)
  | editLeagueId (v : String)
  | submitForm (apiBaseUrl : String) (outcome : FetchOutcome)
deriving DecidableEq, Repr

/-- One event step; the returned flag says whether the auto-download effect
invoked `handleSubmit`.  The effect (`page.tsx` lines 72-77) only fires when
`autoDownload` is set, the league id is non-empty and no loading message is
shown, and it resets `autoDownload` before invoking `handleSubmit`. -/
def stepEvent (s : UiState) : PageEvent → UiState × Bool
  | PageEvent.autoEffect base outcome =>
    if s.autoDownload && !(s.leagueId == "") && s.loadingMessage == "" then
      (runHandleSubmit base { s with autoDownload := false } outcome, true)
    else (s, false)
  | PageEvent.editLeagueId v => ({ s with leagueId := v }, false)
  | PageEvent.submitForm base outcome => (runHandleSubmit base s outcome, false)

/-- Number of automatic `handleSubmit` invocations along an event run. -/
def autoFires (s : UiState) : List PageEvent → Nat
  | [] => 0
  | ev :: evs =>
    (if (stepEvent s ev).2 then 1 else 0) + autoFires (stepEvent s ev).1 evs

theorem applyEffect_autoDownload (s : UiState) (e : Effect) :
    (applyEffect s e).autoDownload = s.autoDownload := by
  cases e <;> rfl

theorem foldl_applyEffect_autoDownload (t : List Effect) (s : UiState) :
    (t.foldl applyEffect s).autoDownload = s.autoDownload := by
  induction t generalizing s with
  | nil => rfl
  | cons e t ih => rw [List.foldl_cons, ih, applyEffect_autoDownload]

theorem runHandleSubmit_autoDownload (base : String) (s : UiState)
    (outcome : FetchOutcome) :
    (runHandleSubmit base s outcome).autoDownload = s.autoDownload :=
  foldl_applyEffect_autoDownload _ s

theorem autoFires_of_not_autoDownload (s : UiState) (evs : List PageEvent)
    (h : s.autoDownload = false) : autoFires s evs = 0 := by
  induction evs generalizing s with
  | nil => rfl
  | cons ev evs ih =>
    match ev with
    | PageEvent.autoEffect base outcome =>
      rw [autoFires, stepEvent, h]
      simp only [Bool.false_and, Bool.false_eq_true, if_false]
      simpa using ih s h
    | PageEvent.editLeagueId v =>
      rw [autoFires, stepEvent]
      simpa using ih { s with leagueId := v } h
    | PageEvent.submitForm base outcome =>
      rw [autoFires, stepEvent]
      simpa using ih (runHandleSubmit base s outcome)
        ((runHandleSubmit_autoDownload base s outcome).trans h)

/-- C8: along any run of events from any mounted state, the auto-download
effect invokes `handleSubmit` at most once — it resets `autoDownload` before
submitting and no event re-arms it, so a page opened with `download=true`
never loops. -/
theorem auto_download_fires_at_most_once (s : UiState) (evs : List PageEvent) :
    autoFires s evs ≤ 1 := by
  induction evs generalizing s with
  | nil => exact Nat.zero_le 1
  | cons ev evs ih =>
    match ev with
    | PageEvent.autoEffect base outcome =>
      rw [autoFires, stepEvent]
      by_cases hc : (s.autoDownload && !(s.leagueId == "") && (s.loadingMessage == "")) = true
      · rw [hc]
        simp only [if_true]
        have hafter : (runHandleSubmit base { s with autoDownload := false } outcome).autoDownload
            = false := runHandleSubmit_autoDownload base _ outcome
        rw [autoFires_of_not_autoDownload _ evs hafter]
      · rw [Bool.not_eq_true] at hc
        rw [hc]
        simpa using ih s
    | PageEvent.editLeagueId v =>
      rw [autoFires, stepEvent]
      simpa using ih { s with leagueId := v }
    | PageEvent.submitForm base outcome =>
      rw [autoFires, stepEvent]
      simpa using ih (runHandleSubmit base s outcome)

/-- C6: the download filename is a deterministic function of the league id
and embeds it — the client fallback of `page.tsx` line 128 is
`fpl-motw-<leagueId>.csv`, injective in the league id, the id is an infix of
it, and the modelled server filename follows the same convention. -/
theorem download_filename_deterministic_embeds_id (lid : String) :
    fallbackFilename lid = "fpl-motw-" ++ lid ++ ".csv" ∧
      (∀ lid2, fallbackFilename lid = fallbackFilename lid2 → lid = lid2) ∧
      (∃ pre post, fallbackFilename lid = pre ++ lid ++ post) ∧
      (∀ n : Nat, serverFilename n = fallbackFilename (toString n)) := by
  refine ⟨rfl, ?_, ⟨"fpl-motw-", ".csv", rfl⟩, fun n => rfl⟩
  intro lid2 h
  have h1 : "fpl-motw-".data ++ (lid.data ++ ".csv".data) =
      "fpl-motw-".data ++ (lid2.data ++ ".csv".data) := by
    have h0 := congrArg String.data h
    rw [fallbackFilename, fallbackFilename, String.data_append, String.data_append,
      String.data_append, String.data_append, List.append_assoc, List.append_assoc] at h0
    exact h0
  exact String.ext (List.append_cancel_right (List.append_cancel_left h1))

/-- Witness for C6: injectivity applied at the league id "7". -/
theorem download_filename_deterministic_embeds_id_witness :
    fallbackFilename "7" = "fpl-motw-" ++ "7" ++ ".csv" ∧
      (∀ lid2, fallbackFilename "7" = fallbackFilename lid2 → "7" = lid2) ∧
      (∃ pre post, fallbackFilename "7" = pre ++ "7" ++ post) ∧
      (∀ n : Nat, serverFilename n = fallbackFilename (toString n)) :=
  download_filename_deterministic_embeds_id "7"

/-! ## Frontend embedding: URL parameter handling of `page.tsx`
(lines 36-58) -/

/-- `URLSearchParams.get`: the value of the first pair with the given key. -/
def queryGet (q : List (String × String)) (k : String) : Option String :=
  (q.find? (fun kv => kv.1 == k)).map (fun kv => kv.2)

/-- JavaScript `||` on a nullable string: falls through on `null` and on the
empty string. -/
def jsOrStr (a : Option String) (b : String) : String :=
  match a with
  | some s => if s == "" then b else s
  | none => b

/-- The league id of `getUrlParams` (`page.tsx` line 41):
`urlParams.get("leagueId") || urlParams.get("league_id") || ""`. -/
def getUrlLeagueId (q : List (String × String)) : String :=
  jsOrStr (queryGet q "leagueId") (jsOrStr (queryGet q "league_id") "")

/-- The auto flag of `getUrlParams` (`page.tsx` line 42):
`urlParams.get("download") === "true"`. -/
def getUrlAuto (q : List (String × String)) : Bool :=
  queryGet q "download" == some "true"

/-- `URLSearchParams.delete k`: remove every pair with the key. -/
def deleteParam (q : List (String × String)) (k : String) : List (String × String) :=
  q.filter (fun kv => !(kv.1 == k))

/-- `URLSearchParams.set k v`: replace the first pair with the key, drop the
later ones, or append if absent. -/
def setParam : List (String × String) → String → String → List (String × String)
  | [], k, v => [(k, v)]
  | kv :: rest, k, v =>
    if kv.1 == k then (k, v) :: deleteParam rest k
    else kv :: setParam rest k v

/-- `updateUrl` (`page.tsx` lines 47-58): set the `leagueId` parameter when
the input is non-empty, delete it when the input becomes empty. -/
def updateUrl (lid : String) (q : List (String × String)) : List (String × String) :=
  if lid == "" then deleteParam q "leagueId" else setParam q "leagueId" lid

theorem queryGet_cons_of_ne (kv : String × String) (rest : List (String × String))
    (k2 : String) (h : (kv.1 == k2) = false) :
    queryGet (kv :: rest) k2 = queryGet rest k2 := by
  rw [queryGet, List.find?_cons, h]
  rfl

theorem queryGet_deleteParam_ne (q : List (String × String)) (k k2 : String)
    (h : k2 ≠ k) : queryGet (deleteParam q k) k2 = queryGet q k2 := by
  induction q with
  | nil => rfl
  | cons kv rest ih =>
    rw [deleteParam, List.filter_cons]
    by_cases hk : kv.1 = k
    · have h1 : (!(kv.1 == k)) = false := by simp [hk]
      have h2 : (kv.1 == k2) = false := by
        simp only [beq_eq_false_iff_ne]
        rw [hk]
        exact fun heq => h heq.symm
      rw [h1]
      simp only [Bool.false_eq_true, if_false]
      have ih2 : queryGet (List.filter (fun kv => !(kv.1 == k)) rest) k2 =
          queryGet rest k2 := ih
      rw [ih2, queryGet_cons_of_ne kv rest k2 h2]
    · have h1 : (!(kv.1 == k)) = true := by simp [hk]
      rw [h1]
      simp only [if_true]
      rw [queryGet, List.find?_cons, queryGet, List.find?_cons]
      by_cases hk2 : (kv.1 == k2) = true
      · rw [hk2]
      · rw [Bool.not_eq_true] at hk2
        rw [hk2]
        exact ih

theorem queryGet_deleteParam_self (q : List (String × String)) (k : String) :
    queryGet (deleteParam q k) k = none := by
  induction q with
  | nil => rfl
  | cons kv rest ih =>
    rw [deleteParam, List.filter_cons]
    by_cases hk : kv.1 = k
    · have h1 : (!(kv.1 == k)) = false := by simp [hk]
      rw [h1]
      simp only [Bool.false_eq_true, if_false]
      exact ih
    · have h1 : (!(kv.1 == k)) = true := by simp [hk]
      have h2 : (kv.1 == k) = false := by simp [hk]
      rw [h1]
      simp only [if_true]
      rw [queryGet, List.find?_cons, h2]
      exact ih

theorem queryGet_setParam_self (q : List (String × String)) (k v : String) :
    queryGet (setParam q k v) k = some v := by
  induction q with
  | nil =>
    rw [setParam, queryGet, List.find?_cons]
    simp
  | cons kv rest ih =>
    rw [setParam]
    by_cases hk : kv.1 = k
    · have h1 : (kv.1 == k) = true := by simp [hk]
      rw [h1]
      simp only [if_true]
      rw [queryGet, List.find?_cons]
      simp
    · have h1 : (kv.1 == k) = false := by simp [hk]
      rw [h1]
      simp only [Bool.false_eq_true, if_false]
      rw [queryGet, List.find?_cons, h1]
      exact ih

theorem queryGet_setParam_ne (q : List (String × String)) (k k2 v : String)
    (h : k2 ≠ k) : queryGet (setParam q k v) k2 = queryGet q k2 := by
  have hkk2 : (k == k2) = false := by
    simp only [beq_eq_false_iff_ne]
    exact fun heq => h heq.symm
  induction q with
  | nil =>
    rw [setParam, queryGet, List.find?_cons, hkk2]
    rfl
  | cons kv rest ih =>
    rw [setParam]
    by_cases hk : kv.1 = k
    · have h1 : (kv.1 == k) = true := by simp [hk]
      have h2 : (kv.1 == k2) = false := by
        simp only [beq_eq_false_iff_ne]
        rw [hk]
        exact fun heq => h heq.symm
      rw [h1]
      simp only [if_true]
      rw [queryGet, List.find?_cons, hkk2, queryGet, List.find?_cons, h2]
      exact queryGet_deleteParam_ne rest k k2 h
    · have h1 : (kv.1 == k) = false := by simp [hk]
      rw [h1]
      simp only [Bool.false_eq_true, if_false]
      rw [queryGet, List.find?_cons, queryGet, List.find?_cons]
      by_cases hk2 : (kv.1 == k2) = true
      · rw [hk2]
      · rw [Bool.not_eq_true] at hk2
        rw [hk2]
        exact ih

/-- C10 counterexample: with both parameters present but `leagueId` holding
the empty value (`?leagueId=&league_id=9`), the page takes the `league_id`
value — the present `leagueId` parameter does not take precedence. -/
theorem leagueId_precedence_counterexample :
    queryGet [("leagueId", ""), ("league_id", "9")] "leagueId" = some "" ∧
      getUrlLeagueId [("leagueId", ""), ("league_id", "9")] = "9" ∧
      getUrlLeagueId [("leagueId", ""), ("league_id", "9")] ≠ "" := by
  refine ⟨rfl, rfl, ?_⟩
  decide

/-- C10 (amended): the league id is read from `leagueId` or `league_id`;
`leagueId` takes precedence when present with a non-empty value (an empty
value falls through to `league_id`); editing the input writes back only the
`leagueId` parameter — every other parameter keeps its value — and an empty
input deletes it. -/
theorem url_param_sync (q : List (String × String)) :
    (∀ v, queryGet q "leagueId" = some v → v ≠ "" → getUrlLeagueId q = v) ∧
      (queryGet q "leagueId" = none ∨ queryGet q "leagueId" = some "" →
        getUrlLeagueId q = jsOrStr (queryGet q "league_id") "") ∧
      (∀ lid k, k ≠ "leagueId" → queryGet (updateUrl lid q) k = queryGet q k) ∧
      queryGet (updateUrl "" q) "leagueId" = none ∧
      (∀ lid, lid ≠ "" → queryGet (updateUrl lid q) "leagueId" = some lid) := by
  refine ⟨?_, ?_, ?_, ?_, ?_⟩
  · intro v hv hne
    rw [getUrlLeagueId, hv, jsOrStr]
    simp [hne]
  · intro h
    rcases h with h | h
    · rw [getUrlLeagueId, h, jsOrStr]
    · rw [getUrlLeagueId, h, jsOrStr]
      simp
  · intro lid k hk
    rw [updateUrl]
    by_cases hlid : lid = ""
    · simp only [hlid, beq_self_eq_true, if_true]
      exact queryGet_deleteParam_ne q "leagueId" k hk
    · have h1 : (lid == "") = false := by simp [hlid]
      rw [h1]
      simp only [Bool.false_eq_true, if_false]
      exact queryGet_setParam_ne q "leagueId" k lid hk
  · rw [updateUrl]
    simp only [beq_self_eq_true, if_true]
    exact queryGet_deleteParam_self q "leagueId"
  · intro lid hlid
    have h1 : (lid == "") = false := by simp [hlid]
    rw [updateUrl, h1]
    simp only [Bool.false_eq_true, if_false]
    exact queryGet_setParam_self q "leagueId" lid

/-- Witness for C10 (amended): concrete precedence and write-back at a
two-parameter query. -/
theorem url_param_sync_witness :
    getUrlLeagueId [("leagueId", "7"), ("league_id", "9")] = "7" ∧
      queryGet (updateUrl "" [("leagueId", "7"), ("x", "1")]) "leagueId" = none ∧
      queryGet (updateUrl "5" [("leagueId", "7"), ("x", "1")]) "x" =
        queryGet [("leagueId", "7"), ("x", "1")] "x" :=
  ⟨(url_param_sync [("leagueId", "7"), ("league_id", "9")]).1 "7" rfl (by decide),
    (url_param_sync [("leagueId", "7"), ("x", "1")]).2.2.2.1,
    (url_param_sync [("leagueId", "7"), ("x", "1")]).2.2.1 "5" "x" (by decide)⟩

end FplMotw
